import Mathlib

/-!
# updategoldenami: tagging machine images that lack a `version` tag

A shallow embedding of `src/updategoldenami/main.go` and `interfaces.go`.

* Go slices are lists (a nil slice and an empty slice are both `[]`).
* Go `*string` fields of the SDK records are `Option String`; dereferencing
  `none` is a run-time panic, modelled by `Except Panic`.
* An SDK operation returning `(*Output, error)` is an `Except GoError Output`:
  the SDK hands back a non-nil output exactly when the error is nil.
* Console output and `CreateTags` requests are recorded in an explicit trace
  of `Event`s; read-only queries (`DescribeRegions`, `DescribeImages`) are
  inputs of the model, not events.
* Each goroutine of `main` is a sequential `regionWorker`; the coordinator
  keeps the trace of every worker separately, so the interleaving of the
  workers is not represented.
-/

namespace UpdateGoldenAmi

/-! ## Data model (the SDK records the program reads and writes) -/

/-- The record `ec2Types.Tag`: both fields are `*string` in the SDK. -/
structure Tag where
  Key : Option String
  Value : Option String
deriving DecidableEq, Repr

/-- The record `ec2Types.Image`, restricted to the fields the program reads
(`ImageId`, `Tags`) and the architecture and ownership metadata. -/
structure Image where
  ImageId : Option String
  Tags : List Tag
  Architecture : String
  OwnerId : Option String
  Public : Option Bool
  Name : Option String
deriving DecidableEq, Repr

/-- The record `ec2Types.Region`, restricted to its name. -/
structure Region where
  RegionName : Option String
deriving DecidableEq, Repr

/-- A run-time panic of the Go program. -/
inductive Panic where
  | nilDereference
deriving DecidableEq, Repr

/-- A Go `error` value: either a plain error with its text, or an error made
by `fmt.Errorf` with `%w`, which keeps the error it wraps. -/
inductive GoError where
  | plain (text : String)
  | wrapping (text : String) (cause : GoError)
deriving DecidableEq, Repr

/-- The method `Error()` of an error: its text. -/
def GoError.Error : GoError → String
  | .plain text => text
  | .wrapping text _ => text

/-- The method `Unwrap()` of an error. -/
def GoError.Unwrap : GoError → Option GoError
  | .plain _ => none
  | .wrapping _ cause => some cause

/-! ## The image filter -/

/-- Loop of `lacksVersionTag` over `image.Tags`: `*t.Key` panics on a nil key;
the first tag keyed `"version"` returns `false`. -/
def lacksVersionTagLoop : List Tag → Except Panic Bool
  | [] => .ok true
  | t :: rest =>
    match t.Key with
    | none => .error .nilDereference
    | some key => if key = "version" then .ok false else lacksVersionTagLoop rest

/-- `lacksVersionTag(image)`. -/
def lacksVersionTag (image : Image) : Except Panic Bool :=
  lacksVersionTagLoop image.Tags

/-- Loop of `filterImages`: `imagesNoTag` is the slice built so far. -/
def filterImagesLoop : List Image → List Image → Except Panic (List Image)
  | [], imagesNoTag => .ok imagesNoTag
  | image :: rest, imagesNoTag =>
    match lacksVersionTag image with
    | .error p => .error p
    | .ok true => filterImagesLoop rest (imagesNoTag ++ [image])
    | .ok false => filterImagesLoop rest imagesNoTag

/-- `filterImages(images)`: starts from the nil slice. -/
def filterImages (images : List Image) : Except Panic (List Image) :=
  filterImagesLoop images []

/-! ## Vocabulary for the statements about the filter -/

/-- The tag is keyed `"version"`. -/
def Tag.isVersion (t : Tag) : Bool := decide (t.Key = some "version")

/-- Number of tags of the image keyed `"version"`. -/
def versionTagCount (image : Image) : Nat := image.Tags.countP Tag.isVersion

/-- The sequence of tag keys of an image. -/
def tagKeys (image : Image) : List (Option String) := image.Tags.map Tag.Key

/-- Every tag of the image has a key. -/
def Keyed (image : Image) : Prop := ∀ t ∈ image.Tags, t.Key ≠ none

/-- Every tag of every image has a key. -/
def AllKeyed (images : List Image) : Prop := ∀ image ∈ images, Keyed image

/-- Every image has an image id. -/
def AllIdentified (images : List Image) : Prop := ∀ image ∈ images, image.ImageId ≠ none

instance (image : Image) : Decidable (Keyed image) := by
  unfold Keyed; infer_instance

instance (images : List Image) : Decidable (AllKeyed images) := by
  unfold AllKeyed; infer_instance

instance (images : List Image) : Decidable (AllIdentified images) := by
  unfold AllIdentified; infer_instance

/-! ## Requests, responses and clients of the SDK -/

/-- The request `ec2.CreateTagsInput`: resource ids and the tags to put on them. -/
structure CreateTagsInput where
  Resources : List String
  Tags : List Tag
deriving DecidableEq, Repr

/-- The request `ec2.DescribeImagesInput`, restricted to the two fields set. -/
structure DescribeImagesInput where
  ExecutableUsers : List String
  Owners : List String
deriving DecidableEq, Repr

/-- The response `ec2.DescribeImagesOutput`. -/
structure DescribeImagesOutput where
  Images : List Image
deriving DecidableEq, Repr

/-- The request `ec2.DescribeRegionsInput`; the program only ever passes nil. -/
structure DescribeRegionsInput where
  AllRegions : Option Bool
deriving DecidableEq, Repr

/-- The response `ec2.DescribeRegionsOutput`. -/
structure DescribeRegionsOutput where
  Regions : List Region
deriving DecidableEq, Repr

/-- The interface `DescribeRegionsClient` of `interfaces.go`. -/
abbrev DescribeRegionsClient :=
  Option DescribeRegionsInput → Except GoError DescribeRegionsOutput

/-- The interface `DescribeImagesClient` of `interfaces.go`. -/
abbrev DescribeImagesClient :=
  DescribeImagesInput → Except GoError DescribeImagesOutput

/-- The `CreateTags` method of an `*ec2.Client`: given the requests this
client received earlier (oldest first) and the present request, the error it
answers, `none` for success. Any deterministic stateful tagger is of this form. -/
abbrev CreateTagsClient :=
  List CreateTagsInput → CreateTagsInput → Option GoError

/-! ## Effects -/

/-- An observable effect of the program. -/
inductive Event where
  /-- A `CreateTags` request sent to the provider, with the error it answered. -/
  | createTags (input : CreateTagsInput) (err : Option GoError)
  /-- Text written by `fmt.Printf` or `fmt.Println`. -/
  | stdout (text : String)
  /-- The message of a `log.Fatalf` (the logger's timestamp is left out). -/
  | logFatal (text : String)
deriving DecidableEq, Repr

/-- How a piece of the program ends. -/
inductive Outcome (α : Type) where
  | returned (value : α)
  /-- The process ended by `os.Exit`, as `log.Fatalf` does with code 1. -/
  | exited (code : Nat)
  | panicked (p : Panic)
deriving DecidableEq, Repr

/-- The effects of a piece of the program, in order, and how it ended. -/
structure Run (α : Type) where
  trace : List Event
  outcome : Outcome α
deriving DecidableEq, Repr

/-- The `CreateTags` requests of a trace, in order. -/
def createTagsCalls : List Event → List CreateTagsInput
  | [] => []
  | .createTags input _ :: rest => input :: createTagsCalls rest
  | _ :: rest => createTagsCalls rest

/-- The texts written to standard output in a trace, in order. -/
def stdoutLines : List Event → List String
  | [] => []
  | .stdout text :: rest => text :: stdoutLines rest
  | _ :: rest => stdoutLines rest

/-- The string `s` occurs in `text`. -/
def Mentions (text s : String) : Prop := s.data <:+: text.data

instance (text s : String) : Decidable (Mentions text s) := by
  unfold Mentions; infer_instance

/-! ## Tagging -/

/-- The `CreateTagsInput` literal built in `addTagToImages`: the single image
id as only resource and the single tag pair. -/
def tagRequest (imageId tagName tagValue : String) : CreateTagsInput :=
  { Resources := [imageId], Tags := [{ Key := some tagName, Value := some tagValue }] }

/-- The line `"%v: Tagged image %s with tag '%s' = '%s'\n"` of `addTagToImages`. -/
def taggedLine (region imageId tagName tagValue : String) : String :=
  region ++ ": Tagged image " ++ imageId ++ " with tag '" ++ tagName ++ "' = '"
    ++ tagValue ++ "'\n"

/-- The error `fmt.Errorf("failed to tag image %s: %v", *img.ImageId, err)`;
`%v` formats the cause's text and does not wrap it. -/
def tagFailure (imageId : String) (err : GoError) : GoError :=
  .plain ("failed to tag image " ++ imageId ++ ": " ++ err.Error)

/-- Loop of `addTagToImages`; `earlier` are the requests already sent through
`createTagsClient`. `*img.ImageId` panics on a nil id; the first failing
request returns the error at once. -/
def addTagToImagesLoop (tagName tagValue : String) (createTagsClient : CreateTagsClient)
    (region : String) : List CreateTagsInput → List Image → Run (Option GoError)
  | _, [] => ⟨[], .returned none⟩
  | earlier, img :: rest =>
    match img.ImageId with
    | none => ⟨[], .panicked .nilDereference⟩
    | some imageId =>
      let input := tagRequest imageId tagName tagValue
      match createTagsClient earlier input with
      | some err => ⟨[.createTags input (some err)], .returned (some (tagFailure imageId err))⟩
      | none =>
        let next := addTagToImagesLoop tagName tagValue createTagsClient region
          (earlier ++ [input]) rest
        ⟨.createTags input none :: .stdout (taggedLine region imageId tagName tagValue)
          :: next.trace, next.outcome⟩

/-- `addTagToImages(images, tagName, tagValue, createTagsClient, region)`,
called with a client that has not been used before. -/
def addTagToImages (images : List Image) (tagName tagValue : String)
    (createTagsClient : CreateTagsClient) (region : String) : Run (Option GoError) :=
  addTagToImagesLoop tagName tagValue createTagsClient region [] images

/-- The answers of a tagger to a sequence of requests sent one after the
other, after the requests `earlier`. -/
def answers (createTagsClient : CreateTagsClient) :
    List CreateTagsInput → List CreateTagsInput → List (Option GoError)
  | _, [] => []
  | earlier, input :: rest =>
    createTagsClient earlier input :: answers createTagsClient (earlier ++ [input]) rest

/-! ## Listing -/

/-- `getEnabledRegions(describeRegionsClient)`: the pair `([]Region, error)`. -/
def getEnabledRegions (describeRegionsClient : DescribeRegionsClient) :
    List Region × Option GoError :=
  match describeRegionsClient none with
  | .error err => ([], some (.wrapping ("error fetching regions: " ++ err.Error) err))
  | .ok describeRegionsResponse => (describeRegionsResponse.Regions, none)

/-- `getPublicImages(ec2Client)`: the pair `([]Image, error)`. -/
def getPublicImages (ec2Client : DescribeImagesClient) : List Image × Option GoError :=
  match ec2Client { ExecutableUsers := ["all"], Owners := ["self"] } with
  | .error err => ([], some (.wrapping ("error fetching images: " ++ err.Error) err))
  | .ok describeImagesResponse => (describeImagesResponse.Images, none)

/-! ## The region worker and the coordinator -/

/-- What the program talks to: the result of `config.LoadDefaultConfig`, the
region lister, and for every region name the image lister and the tagger of
the client bound to that region. -/
structure Cloud where
  loadDefaultConfig : Option GoError
  describeRegions : DescribeRegionsClient
  describeImages : String → DescribeImagesClient
  createTags : String → CreateTagsClient

/-- The line `"%v: Would of Tagged image %s with tag '%s' = '%s'\n"` of `main`. -/
def wouldTagLine (region imageId tagName tagValue : String) : String :=
  region ++ ": Would of Tagged image " ++ imageId ++ " with tag '" ++ tagName ++ "' = '"
    ++ tagValue ++ "'\n"

/-- The dry-run loop of the goroutine (`main`, lines 59-61). -/
def dryRunReport (regionName : String) : List Image → Run Unit
  | [] => ⟨[], .returned ()⟩
  | img :: rest =>
    match img.ImageId with
    | none => ⟨[], .panicked .nilDereference⟩
    | some imageId =>
      let next := dryRunReport regionName rest
      ⟨.stdout (wouldTagLine regionName imageId "version" "legacy-x86_64") :: next.trace,
        next.outcome⟩

/-- The body of the goroutine that `main` starts for one region (lines 39-64). -/
def regionWorker (cloud : Cloud) (dryRun : Bool) (regionName : String) : Run Unit :=
  match getPublicImages (cloud.describeImages regionName) with
  | (_, some err) =>
    ⟨[.logFatal ("error fetching images for region " ++ regionName ++ ": " ++ err.Error)],
      .exited 1⟩
  | (images, none) =>
    match filterImages images with
    | .error p => ⟨[], .panicked p⟩
    | .ok images =>
      if !dryRun then
        let tagging := addTagToImages images "version" "legacy-x86_64"
          (cloud.createTags regionName) regionName
        match tagging.outcome with
        | .returned (some err) =>
          ⟨tagging.trace ++ [.stdout ("Error adding tags: " ++ err.Error ++ "\n")], .returned ()⟩
        | .returned none => ⟨tagging.trace, .returned ()⟩
        | .exited code => ⟨tagging.trace, .exited code⟩
        | .panicked p => ⟨tagging.trace, .panicked p⟩
      else
        dryRunReport regionName images

/-- A run of `main`: the coordinator's own output, the workers it started (in
the order of the region list, each with its region name and its own run), and
how the process ended. -/
structure MainRun where
  trace : List Event
  workers : List (String × Run Unit)
  outcome : Outcome Unit

/-- The loop of `main` that starts one goroutine per region (lines 38-65);
`*enabledRegion.RegionName` panics on a nil name, after the goroutines of the
regions before it were started. -/
def launchWorkers (cloud : Cloud) (dryRun : Bool) :
    List Region → List (String × Run Unit) × Option Panic
  | [] => ([], none)
  | enabledRegion :: rest =>
    match enabledRegion.RegionName with
    | none => ([], some .nilDereference)
    | some regionName =>
      let launched := launchWorkers cloud dryRun rest
      ((regionName, regionWorker cloud dryRun regionName) :: launched.1, launched.2)

/-- The worker did not return: it ended the whole process. -/
def endsProcess (worker : String × Run Unit) : Bool :=
  match worker.2.outcome with
  | .returned _ => false
  | _ => true

/-- The program `main`, after flag parsing gave `dryRun`. When a worker ends
the process (fatal log or panic) no `Done!` is printed; which such worker is
first depends on scheduling, the model reports the first in list order. -/
def main (cloud : Cloud) (dryRun : Bool) : MainRun :=
  match cloud.loadDefaultConfig with
  | some err => ⟨[.logFatal ("unable to load SDK config, " ++ err.Error)], [], .exited 1⟩
  | none =>
    match getEnabledRegions cloud.describeRegions with
    | (_, some err) =>
      ⟨[.logFatal ("error fetching enabled regions for AWS account: " ++ err.Error)], [],
        .exited 1⟩
    | (enabledRegions, none) =>
      match launchWorkers cloud dryRun enabledRegions with
      | (workers, some p) => ⟨[], workers, .panicked p⟩
      | (workers, none) =>
        match workers.find? endsProcess with
        | some worker => ⟨[], workers, worker.2.outcome⟩
        | none => ⟨[.stdout "Done!\n"], workers, .returned ()⟩

/-! ## The provider's image records under tagging -/

/-- Effect of a successful `CreateTags` request on the image records of a
region, posed as appending: every image whose id is among the request's
resources gets the request's tags appended to its tags. -/
def applyCreateTags (input : CreateTagsInput) (images : List Image) : List Image :=
  images.map fun image =>
    match image.ImageId with
    | some imageId =>
      if imageId ∈ input.Resources then { image with Tags := image.Tags ++ input.Tags }
      else image
    | none => image

/-- The image records of a region after the successful requests of a trace. -/
def applyTrace : List Event → List Image → List Image
  | [], images => images
  | .createTags input none :: rest, images => applyTrace rest (applyCreateTags input images)
  | _ :: rest, images => applyTrace rest images

/-! ## Vocabulary for the statements about the worker -/

/-- The two effects of one successful pass of the loop of `addTagToImages`:
the request, answered without error, then the confirmation line. -/
def taggingEvents (region tagName tagValue imageId : String) : List Event :=
  [.createTags (tagRequest imageId tagName tagValue) none,
    .stdout (taggedLine region imageId tagName tagValue)]

/-- The request `DescribeImagesInput` that `getPublicImages` sends. -/
def publicImagesQuery : DescribeImagesInput :=
  { ExecutableUsers := ["all"], Owners := ["self"] }

/-- The image has no tag keyed `"version"`. -/
def unversioned (image : Image) : Bool := decide (versionTagCount image = 0)

/-! ## Sample data: one region with three images -/

/-- An image with the given id and tags. -/
def sampleImage (imageId : String) (tags : List Tag) : Image :=
  { ImageId := some imageId, Tags := tags, Architecture := "x86_64", OwnerId := none,
    Public := some true, Name := none }

/-- Three images: one tagged `version = x86_64`, two without tags. -/
def sampleImages : List Image :=
  [sampleImage "ami-1" [{ Key := some "version", Value := some "x86_64" }],
    sampleImage "ami-2" [], sampleImage "ami-3" []]

/-- A provider with the single region `us-east-1`, the three sample images in
every region, and the given tagger in every region. -/
def sampleCloud (tagger : CreateTagsClient) : Cloud :=
  { loadDefaultConfig := none
    describeRegions := fun _ => .ok { Regions := [{ RegionName := some "us-east-1" }] }
    describeImages := fun _ _ => .ok { Images := sampleImages }
    createTags := fun _ => tagger }

/-- A tagger that accepts every request. -/
def acceptingTagger : CreateTagsClient := fun _ _ => none

/-- A tagger that accepts its first request and rejects every later one. -/
def secondCallFails : CreateTagsClient :=
  fun earlier _ => if earlier.length = 0 then none else some (.plain "boom")

/-- A tagger that rejects every request. -/
def rejectingTagger : CreateTagsClient := fun _ _ => some (.plain "boom")

/-- A region lister that fails. -/
def failingRegions : DescribeRegionsClient := fun _ => .error (.plain "denied")

/-- The sample provider with a failing region lister. -/
def sampleCloudNoRegions : Cloud :=
  { sampleCloud acceptingTagger with describeRegions := failingRegions }

/-- The sample provider with a failing image lister in every region. -/
def sampleCloudNoImages : Cloud :=
  { sampleCloud acceptingTagger with describeImages := fun _ _ => .error (.plain "denied") }

/-- A provider with the regions `us-east-1` and `eu-west-1`, the three sample
images in each, the given tagger in `us-east-1` and an accepting tagger
elsewhere. -/
def twoRegionCloud (taggerA : CreateTagsClient) : Cloud :=
  { loadDefaultConfig := none
    describeRegions := fun _ =>
      .ok { Regions := [{ RegionName := some "us-east-1" }, { RegionName := some "eu-west-1" }] }
    describeImages := fun _ _ => .ok { Images := sampleImages }
    createTags := fun region => if region = "us-east-1" then taggerA else acceptingTagger }

/-- Rewrites the architecture of an image, keeping everything else. -/
def asArm64 (image : Image) : Image := { image with Architecture := "arm64" }

/-! ## Lemmas about the filter -/

theorem lacksVersionTagLoop_keyed (tags : List Tag) (h : ∀ t ∈ tags, t.Key ≠ none) :
    lacksVersionTagLoop tags = .ok (decide (tags.countP Tag.isVersion = 0)) := by
  induction tags with
  | nil => rfl
  | cons t rest ih =>
    have hrest : ∀ u ∈ rest, u.Key ≠ none := fun u hu => h u (List.mem_cons_of_mem _ hu)
    have ht : t.Key ≠ none := h t (List.mem_cons_self _ _)
    cases hk : t.Key with
    | none => exact absurd hk ht
    | some key =>
      by_cases hv : key = "version"
      · simp [lacksVersionTagLoop, hk, hv, List.countP_cons, Tag.isVersion]
      · simp [lacksVersionTagLoop, hk, hv, List.countP_cons, Tag.isVersion, ih hrest]

theorem lacksVersionTag_keyed (image : Image) (h : Keyed image) :
    lacksVersionTag image = .ok (decide (versionTagCount image = 0)) :=
  lacksVersionTagLoop_keyed image.Tags h

theorem filterImagesLoop_keyed (images acc : List Image) (h : AllKeyed images) :
    filterImagesLoop images acc
      = .ok (acc ++ images.filter unversioned) := by
  induction images generalizing acc with
  | nil => simp [filterImagesLoop]
  | cons image rest ih =>
    have hrest : AllKeyed rest := fun i hi => h i (List.mem_cons_of_mem _ hi)
    have himg := lacksVersionTag_keyed image (h image (List.mem_cons_self _ _))
    by_cases hc : versionTagCount image = 0
    · simp [filterImagesLoop, himg, hc, ih _ hrest, List.filter_cons, unversioned]
    · simp [filterImagesLoop, himg, hc, ih _ hrest, List.filter_cons, unversioned]

theorem filterImages_keyed (images : List Image) (h : AllKeyed images) :
    filterImages images
      = .ok (images.filter unversioned) := by
  simp [filterImages, filterImagesLoop_keyed images [] h]

theorem lacksVersionTagLoop_congr (tags₁ tags₂ : List Tag)
    (h : tags₁.map Tag.Key = tags₂.map Tag.Key) :
    lacksVersionTagLoop tags₁ = lacksVersionTagLoop tags₂ := by
  induction tags₁ generalizing tags₂ with
  | nil =>
    cases tags₂ with
    | nil => rfl
    | cons u rest => simp at h
  | cons t rest ih =>
    cases tags₂ with
    | nil => simp at h
    | cons u rest₂ =>
      simp only [List.map_cons, List.cons.injEq] at h
      obtain ⟨hk, hrest⟩ := h
      simp only [lacksVersionTagLoop, hk, ih rest₂ hrest]

theorem filterImagesLoop_all_lack (images acc : List Image)
    (h : ∀ image ∈ images, lacksVersionTag image = .ok true) :
    filterImagesLoop images acc = .ok (acc ++ images) := by
  induction images generalizing acc with
  | nil => simp [filterImagesLoop]
  | cons image rest ih =>
    have hrest : ∀ i ∈ rest, lacksVersionTag i = .ok true :=
      fun i hi => h i (List.mem_cons_of_mem _ hi)
    simp [filterImagesLoop, h image (List.mem_cons_self _ _), ih _ hrest]

theorem filterImagesLoop_ok (images acc out : List Image)
    (h : filterImagesLoop images acc = .ok out) :
    ∃ kept, out = acc ++ kept ∧ kept.Sublist images
      ∧ ∀ image ∈ kept, lacksVersionTag image = .ok true := by
  induction images generalizing acc with
  | nil =>
    simp only [filterImagesLoop, Except.ok.injEq] at h
    exact ⟨[], by simp [h], List.Sublist.refl _, by simp⟩
  | cons image rest ih =>
    cases hl : lacksVersionTag image with
    | error p => simp [filterImagesLoop, hl] at h
    | ok keep =>
      cases keep with
      | true =>
        simp only [filterImagesLoop, hl] at h
        obtain ⟨kept, hout, hsub, hall⟩ := ih _ h
        refine ⟨image :: kept, by simp [hout], hsub.cons₂ _, ?_⟩
        intro i hi
        rcases List.mem_cons.mp hi with rfl | hi
        · exact hl
        · exact hall i hi
      | false =>
        simp only [filterImagesLoop, hl] at h
        obtain ⟨kept, hout, hsub, hall⟩ := ih _ h
        exact ⟨kept, hout, hsub.cons _, hall⟩

theorem filterImages_ok (images out : List Image) (h : filterImages images = .ok out) :
    out.Sublist images ∧ ∀ image ∈ out, lacksVersionTag image = .ok true := by
  obtain ⟨kept, hout, hsub, hall⟩ := filterImagesLoop_ok images [] out h
  simp only [List.nil_append] at hout
  subst hout
  exact ⟨hsub, hall⟩

theorem filterImagesLoop_map (rewrite : Image → Image)
    (hrw : ∀ image, tagKeys (rewrite image) = tagKeys image) (images acc : List Image) :
    filterImagesLoop (images.map rewrite) (acc.map rewrite)
      = (filterImagesLoop images acc).map (List.map rewrite) := by
  induction images generalizing acc with
  | nil => simp [filterImagesLoop, Except.map]
  | cons image rest ih =>
    have hl : lacksVersionTag (rewrite image) = lacksVersionTag image :=
      lacksVersionTagLoop_congr _ _ (hrw image)
    cases hc : lacksVersionTag image with
    | error p => simp [filterImagesLoop, hl, hc, Except.map]
    | ok keep =>
      cases keep with
      | true =>
        have := ih (acc ++ [image])
        simp only [List.map_append, List.map_cons, List.map_nil] at this
        simp [filterImagesLoop, hl, hc, this]
      | false => simp [filterImagesLoop, hl, hc, ih acc]

/-! ## The claims about the filter -/

/-- C1: for every sequence of images in which each tag has a key, `filterImages`
returns exactly the order-preserving subsequence of the images that have no tag
keyed "version". The result is at most as long as the input, every image in it
has zero tags keyed "version", every input image left out has at least one tag
keyed "version", and an image with zero tags is always kept. -/
theorem filterImages_spec (images : List Image) (h : AllKeyed images) :
    ∃ filtered, filterImages images = .ok filtered
      ∧ filtered = images.filter unversioned
      ∧ filtered.Sublist images
      ∧ filtered.length ≤ images.length
      ∧ (∀ image ∈ filtered, versionTagCount image = 0)
      ∧ (∀ image ∈ images, image ∉ filtered → 1 ≤ versionTagCount image)
      ∧ (∀ image ∈ images, image.Tags = [] → image ∈ filtered) := by
  refine ⟨_, filterImages_keyed images h, rfl, List.filter_sublist _,
    List.length_filter_le _ _, ?_, ?_, ?_⟩
  · intro image hi
    simpa [unversioned] using (List.mem_filter.mp hi).2
  · intro image hi hnot
    by_contra hc
    exact hnot (List.mem_filter.mpr ⟨hi, by simpa [unversioned] using hc⟩)
  · intro image hi ht
    exact List.mem_filter.mpr ⟨hi, by simp [unversioned, versionTagCount, ht]⟩

/-- C2: `filterImages` is idempotent. Running it on its own output gives the
same output (when the first run panics, so does the composition), and every
image it returns is an image of the input, unchanged: the output is a
subsequence of the input, so no tag entry is added, removed or changed. -/
theorem filterImages_idempotent (images : List Image) :
    (filterImages images >>= filterImages) = filterImages images
      ∧ ∀ filtered, filterImages images = .ok filtered →
          filterImages filtered = .ok filtered ∧ filtered.Sublist images := by
  have key : ∀ filtered, filterImages images = .ok filtered →
      filterImages filtered = .ok filtered ∧ filtered.Sublist images := by
    intro filtered hf
    obtain ⟨hsub, hall⟩ := filterImages_ok images filtered hf
    exact ⟨by simpa [filterImages] using filterImagesLoop_all_lack filtered [] hall, hsub⟩
  refine ⟨?_, key⟩
  cases hf : filterImages images with
  | error p => rfl
  | ok filtered =>
    show filterImages filtered = .ok filtered
    exact (key filtered hf).1

/-- C9: the filter decides on tag keys only. Two images with the same sequence
of tag keys get the same answer from `lacksVersionTag`, whatever their
architecture, ownership, image id, other metadata or tag values; and rewriting
the images in any way that keeps their tag keys (such as changing the
architecture) changes nothing in which images `filterImages` selects. -/
theorem lacksVersionTag_keys_only (a b : Image) (hkeys : tagKeys a = tagKeys b)
    (rewrite : Image → Image) (hrw : ∀ image, tagKeys (rewrite image) = tagKeys image)
    (images : List Image) :
    lacksVersionTag a = lacksVersionTag b
      ∧ filterImages (images.map rewrite)
          = (filterImages images).map (List.map rewrite) := by
  refine ⟨lacksVersionTagLoop_congr _ _ hkeys, ?_⟩
  simpa [filterImages] using filterImagesLoop_map rewrite hrw images []

/-! ## Lemmas about tagging and reporting -/

theorem addTagToImagesLoop_success (tagName tagValue : String) (client : CreateTagsClient)
    (region : String) (images : List Image) (ids : List String)
    (earlier : List CreateTagsInput)
    (hids : images.map Image.ImageId = ids.map some)
    (hans : ∀ a ∈ answers client earlier (ids.map (tagRequest · tagName tagValue)), a = none) :
    addTagToImagesLoop tagName tagValue client region earlier images
      = ⟨ids.flatMap (taggingEvents region tagName tagValue), .returned none⟩ := by
  induction images generalizing ids earlier with
  | nil =>
    cases ids with
    | nil => simp [addTagToImagesLoop]
    | cons i rest => simp at hids
  | cons img rest ih =>
    cases ids with
    | nil => simp at hids
    | cons imageId ids =>
      simp only [List.map_cons, List.cons.injEq] at hids
      obtain ⟨himg, hrest⟩ := hids
      simp only [List.map_cons, answers, List.mem_cons, forall_eq_or_imp] at hans
      obtain ⟨hfirst, hlater⟩ := hans
      simp [addTagToImagesLoop, himg, hfirst, ih ids _ hrest hlater, taggingEvents]

theorem addTagToImagesLoop_failure (tagName tagValue : String) (client : CreateTagsClient)
    (region : String) (pre : List Image) (img : Image) (post : List Image)
    (done : List String) (failedId : String) (cause : GoError)
    (earlier : List CreateTagsInput)
    (hpre : pre.map Image.ImageId = done.map some) (himg : img.ImageId = some failedId)
    (hans : answers client earlier ((done ++ [failedId]).map (tagRequest · tagName tagValue))
      = done.map (fun _ => none) ++ [some cause]) :
    addTagToImagesLoop tagName tagValue client region earlier (pre ++ img :: post)
      = ⟨done.flatMap (taggingEvents region tagName tagValue)
          ++ [.createTags (tagRequest failedId tagName tagValue) (some cause)],
        .returned (some (tagFailure failedId cause))⟩ := by
  induction pre generalizing done earlier with
  | nil =>
    cases done with
    | nil =>
      simp only [List.nil_append, List.map_cons, List.map_nil, answers, List.cons.injEq,
        and_true] at hans
      simp [addTagToImagesLoop, himg, hans]
    | cons i rest => simp at hpre
  | cons first rest ih =>
    cases done with
    | nil => simp at hpre
    | cons imageId done =>
      simp only [List.map_cons, List.cons.injEq] at hpre
      obtain ⟨hfirst, hrest⟩ := hpre
      simp only [List.cons_append, List.map_cons, answers, List.cons.injEq] at hans
      obtain ⟨hok, hlater⟩ := hans
      simp [addTagToImagesLoop, hfirst, hok, ih done _ hrest hlater, taggingEvents]

theorem createTagsCalls_append (t₁ t₂ : List Event) :
    createTagsCalls (t₁ ++ t₂) = createTagsCalls t₁ ++ createTagsCalls t₂ := by
  induction t₁ with
  | nil => rfl
  | cons e rest ih => cases e <;> simp [createTagsCalls, ih]

theorem stdoutLines_append (t₁ t₂ : List Event) :
    stdoutLines (t₁ ++ t₂) = stdoutLines t₁ ++ stdoutLines t₂ := by
  induction t₁ with
  | nil => rfl
  | cons e rest ih => cases e <;> simp [stdoutLines, ih]

theorem createTagsCalls_tagging (region tagName tagValue : String) (ids : List String) :
    createTagsCalls (ids.flatMap (taggingEvents region tagName tagValue))
      = ids.map (tagRequest · tagName tagValue) := by
  induction ids with
  | nil => rfl
  | cons i rest ih =>
    rw [List.flatMap_cons, createTagsCalls_append, ih]
    rfl

theorem stdoutLines_tagging (region tagName tagValue : String) (ids : List String) :
    stdoutLines (ids.flatMap (taggingEvents region tagName tagValue))
      = ids.map (taggedLine region · tagName tagValue) := by
  induction ids with
  | nil => rfl
  | cons i rest ih =>
    rw [List.flatMap_cons, stdoutLines_append, ih]
    rfl

theorem dryRunReport_identified (region : String) (images : List Image) (ids : List String)
    (hids : images.map Image.ImageId = ids.map some) :
    dryRunReport region images
      = ⟨ids.map (fun imageId =>
          .stdout (wouldTagLine region imageId "version" "legacy-x86_64")), .returned ()⟩ := by
  induction images generalizing ids with
  | nil =>
    cases ids with
    | nil => simp [dryRunReport]
    | cons i rest => simp at hids
  | cons img rest ih =>
    cases ids with
    | nil => simp at hids
    | cons imageId ids =>
      simp only [List.map_cons, List.cons.injEq] at hids
      simp [dryRunReport, hids.1, ih ids hids.2]

theorem dryRunReport_no_calls (region : String) (images : List Image) :
    createTagsCalls (dryRunReport region images).trace = [] := by
  induction images with
  | nil => rfl
  | cons img rest ih =>
    cases h : img.ImageId with
    | none => simp [dryRunReport, h, createTagsCalls]
    | some imageId => simp [dryRunReport, h, createTagsCalls, ih]

theorem regionWorker_dry_no_calls (cloud : Cloud) (region : String) :
    createTagsCalls (regionWorker cloud true region).trace = [] := by
  unfold regionWorker
  split
  · rfl
  · split
    · rfl
    · simpa using dryRunReport_no_calls region _

theorem getPublicImages_ok (client : DescribeImagesClient) (images : List Image)
    (h : client publicImagesQuery = .ok ⟨images⟩) :
    getPublicImages client = (images, none) := by
  simp only [publicImagesQuery] at h
  simp [getPublicImages, h]

theorem wouldTagLine_mentions (region imageId tagName tagValue : String) :
    Mentions (wouldTagLine region imageId tagName tagValue) region
      ∧ Mentions (wouldTagLine region imageId tagName tagValue) imageId
      ∧ Mentions (wouldTagLine region imageId tagName tagValue) tagName
      ∧ Mentions (wouldTagLine region imageId tagName tagValue) tagValue := by
  simp only [Mentions, wouldTagLine, String.data_append]
  refine ⟨?_, ?_, ?_, ?_⟩
  · exact ⟨[], ": Would of Tagged image ".data ++ imageId.data ++ " with tag \x27".data ++ tagName.data
      ++ "\x27 = \x27".data ++ tagValue.data ++ "\x27\n".data, by simp only [List.append_assoc, List.nil_append]⟩
  · exact ⟨region.data ++ ": Would of Tagged image ".data, " with tag \x27".data ++ tagName.data
      ++ "\x27 = \x27".data ++ tagValue.data ++ "\x27\n".data, by simp only [List.append_assoc]⟩
  · exact ⟨region.data ++ ": Would of Tagged image ".data ++ imageId.data ++ " with tag \x27".data,
      "\x27 = \x27".data ++ tagValue.data ++ "\x27\n".data, by simp only [List.append_assoc]⟩
  · exact ⟨region.data ++ ": Would of Tagged image ".data ++ imageId.data ++ " with tag \x27".data
      ++ tagName.data ++ "\x27 = \x27".data, "\x27\n".data, by simp only [List.append_assoc]⟩

theorem taggedLine_mentions (region imageId tagName tagValue : String) :
    Mentions (taggedLine region imageId tagName tagValue) region
      ∧ Mentions (taggedLine region imageId tagName tagValue) imageId
      ∧ Mentions (taggedLine region imageId tagName tagValue) tagName
      ∧ Mentions (taggedLine region imageId tagName tagValue) tagValue := by
  simp only [Mentions, taggedLine, String.data_append]
  refine ⟨?_, ?_, ?_, ?_⟩
  · exact ⟨[], ": Tagged image ".data ++ imageId.data ++ " with tag \x27".data ++ tagName.data
      ++ "\x27 = \x27".data ++ tagValue.data ++ "\x27\n".data, by simp only [List.append_assoc, List.nil_append]⟩
  · exact ⟨region.data ++ ": Tagged image ".data, " with tag \x27".data ++ tagName.data
      ++ "\x27 = \x27".data ++ tagValue.data ++ "\x27\n".data, by simp only [List.append_assoc]⟩
  · exact ⟨region.data ++ ": Tagged image ".data ++ imageId.data ++ " with tag \x27".data,
      "\x27 = \x27".data ++ tagValue.data ++ "\x27\n".data, by simp only [List.append_assoc]⟩
  · exact ⟨region.data ++ ": Tagged image ".data ++ imageId.data ++ " with tag \x27".data
      ++ tagName.data ++ "\x27 = \x27".data, "\x27\n".data, by simp only [List.append_assoc]⟩

theorem addTagToImagesLoop_outcome_region (tagName tagValue : String)
    (client : CreateTagsClient) (region other : String) (images : List Image)
    (earlier : List CreateTagsInput) :
    (addTagToImagesLoop tagName tagValue client region earlier images).outcome
      = (addTagToImagesLoop tagName tagValue client other earlier images).outcome := by
  induction images generalizing earlier with
  | nil => rfl
  | cons img rest ih =>
    cases hid : img.ImageId with
    | none => simp [addTagToImagesLoop, hid]
    | some imageId =>
      cases hc : client earlier (tagRequest imageId tagName tagValue) with
      | some cause => simp [addTagToImagesLoop, hid, hc]
      | none => simp [addTagToImagesLoop, hid, hc, ih]

theorem addTagToImagesLoop_identified (tagName tagValue : String) (client : CreateTagsClient)
    (region : String) (images : List Image) (earlier : List CreateTagsInput)
    (h : AllIdentified images) :
    ∃ result, (addTagToImagesLoop tagName tagValue client region earlier images).outcome
      = .returned result := by
  induction images generalizing earlier with
  | nil => exact ⟨none, rfl⟩
  | cons img rest ih =>
    have hrest : AllIdentified rest := fun i hi => h i (List.mem_cons_of_mem _ hi)
    cases hid : img.ImageId with
    | none => exact absurd hid (h img (List.mem_cons_self _ _))
    | some imageId =>
      cases hc : client earlier (tagRequest imageId tagName tagValue) with
      | some cause =>
        exact ⟨some (tagFailure imageId cause), by simp [addTagToImagesLoop, hid, hc]⟩
      | none =>
        obtain ⟨result, hres⟩ := ih (earlier ++ [tagRequest imageId tagName tagValue]) hrest
        exact ⟨result, by simp [addTagToImagesLoop, hid, hc, hres]⟩

theorem dryRunReport_returns (region : String) (images : List Image)
    (h : AllIdentified images) : (dryRunReport region images).outcome = .returned () := by
  induction images with
  | nil => rfl
  | cons img rest ih =>
    have hrest : AllIdentified rest := fun i hi => h i (List.mem_cons_of_mem _ hi)
    cases hid : img.ImageId with
    | none => exact absurd hid (h img (List.mem_cons_self _ _))
    | some imageId => simp [dryRunReport, hid, ih hrest]

theorem regionWorker_returns (cloud : Cloud) (dryRun : Bool) (region : String)
    (images : List Image)
    (hlist : cloud.describeImages region publicImagesQuery = .ok ⟨images⟩)
    (hkeyed : AllKeyed images) (hident : AllIdentified images) :
    (regionWorker cloud dryRun region).outcome = .returned () := by
  have hsel : AllIdentified (images.filter unversioned) :=
    fun i hi => hident i (List.mem_filter.mp hi).1
  cases dryRun with
  | true =>
    simp [regionWorker, getPublicImages_ok _ _ hlist, filterImages_keyed images hkeyed,
      dryRunReport_returns region _ hsel]
  | false =>
    obtain ⟨result, hres⟩ := addTagToImagesLoop_identified "version" "legacy-x86_64"
      (cloud.createTags region) region _ [] hsel
    cases result with
    | none =>
      simp [regionWorker, getPublicImages_ok _ _ hlist, filterImages_keyed images hkeyed,
        addTagToImages, hres]
    | some err =>
      simp [regionWorker, getPublicImages_ok _ _ hlist, filterImages_keyed images hkeyed,
        addTagToImages, hres]

theorem regionWorker_congr (cloud₁ cloud₂ : Cloud) (dryRun : Bool) (region : String)
    (himages : cloud₂.describeImages = cloud₁.describeImages)
    (htagger : cloud₂.createTags region = cloud₁.createTags region) :
    regionWorker cloud₂ dryRun region = regionWorker cloud₁ dryRun region := by
  simp only [regionWorker, himages, htagger]

theorem regionWorker_logs_failure (cloud : Cloud) (region : String)
    (images selected : List Image) (err : GoError)
    (hlist : cloud.describeImages region publicImagesQuery = .ok ⟨images⟩)
    (hsel : filterImages images = .ok selected)
    (hfail : (addTagToImages selected "version" "legacy-x86_64" (cloud.createTags region)
      region).outcome = .returned (some err)) :
    regionWorker cloud false region
      = ⟨(addTagToImages selected "version" "legacy-x86_64" (cloud.createTags region)
            region).trace ++ [.stdout ("Error adding tags: " ++ err.Error ++ "\n")],
          .returned ()⟩ := by
  simp [regionWorker, getPublicImages_ok _ _ hlist, hsel, hfail]

theorem launchWorkers_named (cloud : Cloud) (dryRun : Bool) (regions : List Region)
    (names : List String) (h : regions.map Region.RegionName = names.map some) :
    launchWorkers cloud dryRun regions
      = (names.map (fun name => (name, regionWorker cloud dryRun name)), none) := by
  induction regions generalizing names with
  | nil =>
    cases names with
    | nil => rfl
    | cons n rest => simp at h
  | cons r rest ih =>
    cases names with
    | nil => simp at h
    | cons name names =>
      simp only [List.map_cons, List.cons.injEq] at h
      simp [launchWorkers, h.1, ih names h.2]

theorem main_all_return (cloud : Cloud) (dryRun : Bool) (regions : List Region)
    (names : List String)
    (hcfg : cloud.loadDefaultConfig = none)
    (hregions : cloud.describeRegions none = .ok ⟨regions⟩)
    (hnames : regions.map Region.RegionName = names.map some)
    (hreturn : ∀ name ∈ names, (regionWorker cloud dryRun name).outcome = .returned ()) :
    (main cloud dryRun).workers = names.map (fun name => (name, regionWorker cloud dryRun name))
      ∧ (main cloud dryRun).trace = [.stdout "Done!\n"]
      ∧ (main cloud dryRun).outcome = .returned () := by
  have hfind : (names.map (fun name => (name, regionWorker cloud dryRun name))).find?
      endsProcess = none := by
    rw [List.find?_eq_none]
    intro w hw
    obtain ⟨name, hname, rfl⟩ := List.mem_map.mp hw
    simp [endsProcess, hreturn name hname]
  simp [main, hcfg, getEnabledRegions, hregions, launchWorkers_named cloud dryRun regions names
    hnames, hfind]

/-! ## Lemmas about the image records under tagging -/

theorem applyTrace_tagging (region tagName tagValue : String) (ids : List String)
    (images : List Image) :
    applyTrace (ids.flatMap (taggingEvents region tagName tagValue)) images
      = ids.foldl (fun records imageId =>
          applyCreateTags (tagRequest imageId tagName tagValue) records) images := by
  induction ids generalizing images with
  | nil => rfl
  | cons imageId rest ih =>
    simp only [List.flatMap_cons, taggingEvents, List.cons_append, List.nil_append,
      applyTrace, List.foldl_cons]
    exact ih _

theorem applyTrace_append (t₁ t₂ : List Event) (images : List Image) :
    applyTrace (t₁ ++ t₂) images = applyTrace t₂ (applyTrace t₁ images) := by
  induction t₁ generalizing images with
  | nil => rfl
  | cons e rest ih =>
    cases e with
    | createTags input err =>
      cases err with
      | none => simp [applyTrace, ih]
      | some cause => simp [applyTrace, ih]
    | stdout text => simp [applyTrace, ih]
    | logFatal text => simp [applyTrace, ih]

theorem lacksVersionTagLoop_append_version (tags : List Tag) (value : Option String)
    (h : lacksVersionTagLoop tags = .ok true) :
    lacksVersionTagLoop (tags ++ [{ Key := some "version", Value := value }]) = .ok false := by
  induction tags with
  | nil => simp [lacksVersionTagLoop]
  | cons t rest ih =>
    cases hk : t.Key with
    | none => simp [lacksVersionTagLoop, hk] at h
    | some key =>
      by_cases hv : key = "version"
      · simp [lacksVersionTagLoop, hk, hv] at h
      · simp only [lacksVersionTagLoop, hk, hv, if_false] at h
        simp [lacksVersionTagLoop, hk, hv, ih h]

theorem applyCreateTags_step (imageId : String) (value : String) (rest : List String)
    (images : List Image)
    (h : ∀ image ∈ images, Keyed image
      ∧ (versionTagCount image ≠ 0 ∨ ∃ i ∈ imageId :: rest, image.ImageId = some i)) :
    ∀ image ∈ applyCreateTags (tagRequest imageId "version" value) images, Keyed image
      ∧ (versionTagCount image ≠ 0 ∨ ∃ i ∈ rest, image.ImageId = some i) := by
  intro updated hmem
  obtain ⟨image, himage, rfl⟩ := List.mem_map.mp hmem
  obtain ⟨hkeyed, hcase⟩ := h image himage
  cases hid : image.ImageId with
  | none =>
    refine ⟨by simpa [hid] using hkeyed, ?_⟩
    rcases hcase with hc | ⟨i, _, hi⟩
    · exact Or.inl (by simpa [hid] using hc)
    · simp [hid] at hi
  | some own =>
    by_cases hown : own = imageId
    · subst hown
      refine ⟨?_, Or.inl ?_⟩
      · intro t ht
        simp only [tagRequest, List.mem_singleton, if_true, List.mem_append] at ht
        rcases ht with ht | ht
        · exact hkeyed t ht
        · simp [ht]
      · simp [tagRequest, versionTagCount, List.countP_append, Tag.isVersion]
    · have hnot : own ∉ (tagRequest imageId "version" value).Resources := by
        simp [tagRequest, hown]
      simp only [if_neg hnot]
      refine ⟨hkeyed, ?_⟩
      rcases hcase with hc | ⟨i, hi, himg⟩
      · exact Or.inl hc
      · rw [hid, Option.some.injEq] at himg
        subst himg
        rcases List.mem_cons.mp hi with heq | hrest
        · exact absurd heq hown
        · exact Or.inr ⟨own, hrest, hid⟩

theorem tagging_leaves_none (value : String) (ids : List String) (images : List Image)
    (h : ∀ image ∈ images, Keyed image
      ∧ (versionTagCount image ≠ 0 ∨ ∃ i ∈ ids, image.ImageId = some i)) :
    filterImages (ids.foldl (fun records imageId =>
      applyCreateTags (tagRequest imageId "version" value) records) images) = .ok [] := by
  induction ids generalizing images with
  | nil =>
    have hkeyed : AllKeyed images := fun image hi => (h image hi).1
    rw [List.foldl_nil, filterImages_keyed images hkeyed, List.filter_eq_nil_iff.mpr]
    intro image hi
    rcases (h image hi).2 with hc | ⟨i, hi', _⟩
    · simpa [unversioned] using hc
    · simp at hi'
  | cons imageId rest ih =>
    rw [List.foldl_cons]
    exact ih _ (applyCreateTags_step imageId value rest images h)

theorem regionWorker_nothing_to_tag (cloud : Cloud) (region : String) (images : List Image)
    (hlist : cloud.describeImages region publicImagesQuery = .ok ⟨images⟩)
    (hnone : filterImages images = .ok []) :
    regionWorker cloud false region = ⟨[], .returned ()⟩ := by
  simp [regionWorker, getPublicImages_ok _ _ hlist, hnone, addTagToImages, addTagToImagesLoop]

/-! ## The claims about the region worker -/

/-- C3: dry-run invariant. With the dry-run flag set the region worker sends no
`CreateTags` request, whatever the provider and the region; and when the image
lister returns a list of images (each tag having a key, each selected image
having an id), the worker's trace is exactly one report line per image selected
by `filterImages`, in filter order, each naming the region, the image id, the
tag key "version" and the tag value "legacy-x86_64". -/
theorem regionWorker_dry_run (cloud : Cloud) (region : String) (images : List Image)
    (ids : List String)
    (hlist : cloud.describeImages region publicImagesQuery = .ok ⟨images⟩)
    (hkeyed : AllKeyed images)
    (hids : (images.filter unversioned).map Image.ImageId = ids.map some) :
    (∀ (anyCloud : Cloud) (anyRegion : String),
        createTagsCalls (regionWorker anyCloud true anyRegion).trace = [])
      ∧ ∃ selected, filterImages images = .ok selected
          ∧ selected.map Image.ImageId = ids.map some
          ∧ regionWorker cloud true region
              = ⟨ids.map (fun imageId =>
                  .stdout (wouldTagLine region imageId "version" "legacy-x86_64")),
                .returned ()⟩
          ∧ ∀ imageId ∈ ids,
              Mentions (wouldTagLine region imageId "version" "legacy-x86_64") region
              ∧ Mentions (wouldTagLine region imageId "version" "legacy-x86_64") imageId
              ∧ Mentions (wouldTagLine region imageId "version" "legacy-x86_64") "version"
              ∧ Mentions (wouldTagLine region imageId "version" "legacy-x86_64")
                  "legacy-x86_64" := by
  refine ⟨regionWorker_dry_no_calls, images.filter unversioned,
    filterImages_keyed images hkeyed, hids, ?_, fun imageId _ => wouldTagLine_mentions _ _ _ _⟩
  simp [regionWorker, getPublicImages_ok _ _ hlist, filterImages_keyed images hkeyed,
    dryRunReport_identified region _ ids hids]

theorem addTagToImages_failure_run (images : List Image) (tagName tagValue region : String)
    (client : CreateTagsClient) (k : Nat) (hk1 : 1 ≤ k) (hkN : k ≤ images.length)
    (done : List String) (failedId : String) (cause : GoError)
    (hids : (images.take k).map Image.ImageId = (done ++ [failedId]).map some)
    (hans : answers client [] ((done ++ [failedId]).map (tagRequest · tagName tagValue))
      = List.replicate (k - 1) none ++ [some cause]) :
    (addTagToImages images tagName tagValue client region).trace
        = done.flatMap (taggingEvents region tagName tagValue)
            ++ [.createTags (tagRequest failedId tagName tagValue) (some cause)]
      ∧ createTagsCalls (addTagToImages images tagName tagValue client region).trace
          = (done ++ [failedId]).map (tagRequest · tagName tagValue)
      ∧ (createTagsCalls (addTagToImages images tagName tagValue client region).trace).length
          = k
      ∧ stdoutLines (addTagToImages images tagName tagValue client region).trace
          = done.map (taggedLine region · tagName tagValue)
      ∧ (stdoutLines (addTagToImages images tagName tagValue client region).trace).length
          = k - 1
      ∧ (addTagToImages images tagName tagValue client region).outcome
          = .returned (some (tagFailure failedId cause))
      ∧ ∀ records, applyTrace (addTagToImages images tagName tagValue client region).trace
          records = done.foldl (fun updated imageId =>
            applyCreateTags (tagRequest imageId tagName tagValue) updated) records := by
  have hlen : done.length + 1 = k := by
    have := congrArg List.length hids
    simp only [List.length_map, List.length_take, List.length_append, List.length_singleton]
      at this
    omega
  have hids' : (images.take k).map Image.ImageId = done.map some ++ [some failedId] := by
    simpa using hids
  obtain ⟨pre, last, hsplit, hpre, hlast⟩ := List.map_eq_append_iff.mp hids'
  obtain ⟨img, tail, hcons, himg, htail⟩ := List.map_eq_cons_iff.mp hlast
  have htail' : tail = [] := by simpa using htail
  subst htail'
  subst hcons
  have himages : images = pre ++ img :: images.drop k := by
    conv_lhs => rw [← List.take_append_drop k images, hsplit]
    simp
  have hans' : answers client [] ((done ++ [failedId]).map (tagRequest · tagName tagValue))
      = done.map (fun _ => none) ++ [some cause] := by
    rw [hans, ← hlen]
    simp [List.map_const']
  have hrun : addTagToImages images tagName tagValue client region
      = ⟨done.flatMap (taggingEvents region tagName tagValue)
          ++ [.createTags (tagRequest failedId tagName tagValue) (some cause)],
        .returned (some (tagFailure failedId cause))⟩ := by
    unfold addTagToImages
    rw [himages]
    exact addTagToImagesLoop_failure tagName tagValue client region pre img _ done failedId
      cause [] hpre himg hans'
  rw [hrun]
  simp only [createTagsCalls_append, stdoutLines_append, createTagsCalls_tagging,
    stdoutLines_tagging, createTagsCalls, stdoutLines, List.append_nil, List.map_append,
    List.map_cons, List.map_nil, List.length_append, List.length_map, List.length_singleton,
    true_and]
  refine ⟨hlen, by omega, ?_⟩
  intro records
  rw [applyTrace_append, applyTrace_tagging]
  rfl

/-- C4: fail-fast per region. For a list of N images and 1 <= k <= N (the
first k images having the ids `done ++ [failedId]`), if the tagger succeeds on
calls 1..k-1 and fails on the k-th, `addTagToImages` sends exactly k requests:
for each of the images 1..k, in order, the request with that image's id as only
resource and the single pair (tagName, tagValue); none for images k+1..N. It
prints exactly k-1 confirmation lines, those of images 1..k-1 in order, each
naming region, image id, tag key and tag value, and returns the non-nil error
"failed to tag image <id of image k>: <cause>". Its trace ends with the failed
request and the image records are left as the k-1 successful requests made
them: nothing is undone. -/
theorem addTagToImages_fail_fast (images : List Image) (tagName tagValue region : String)
    (client : CreateTagsClient) (k : Nat) (hk1 : 1 ≤ k) (hkN : k ≤ images.length)
    (done : List String) (failedId : String) (cause : GoError)
    (hids : (images.take k).map Image.ImageId = (done ++ [failedId]).map some)
    (hans : answers client [] ((done ++ [failedId]).map (fun imageId =>
        ({ Resources := [imageId], Tags := [{ Key := some tagName, Value := some tagValue }] }
          : CreateTagsInput)))
      = List.replicate (k - 1) none ++ [some cause]) :
    (addTagToImages images tagName tagValue client region).trace
        = done.flatMap (fun imageId =>
            [.createTags
                { Resources := [imageId],
                  Tags := [{ Key := some tagName, Value := some tagValue }] } none,
              .stdout (region ++ ": Tagged image " ++ imageId ++ " with tag '" ++ tagName
                ++ "' = '" ++ tagValue ++ "'\n")])
          ++ [.createTags
                { Resources := [failedId],
                  Tags := [{ Key := some tagName, Value := some tagValue }] } (some cause)]
      ∧ createTagsCalls (addTagToImages images tagName tagValue client region).trace
          = (done ++ [failedId]).map (fun imageId =>
              { Resources := [imageId],
                Tags := [{ Key := some tagName, Value := some tagValue }] })
      ∧ (createTagsCalls (addTagToImages images tagName tagValue client region).trace).length
          = k
      ∧ stdoutLines (addTagToImages images tagName tagValue client region).trace
          = done.map (fun imageId =>
              region ++ ": Tagged image " ++ imageId ++ " with tag '" ++ tagName
                ++ "' = '" ++ tagValue ++ "'\n")
      ∧ (stdoutLines (addTagToImages images tagName tagValue client region).trace).length
          = k - 1
      ∧ (images.take (k - 1)).map Image.ImageId = done.map some
      ∧ (images.drop (k - 1)).head?.bind Image.ImageId = some failedId
      ∧ (∀ line ∈ stdoutLines (addTagToImages images tagName tagValue client region).trace,
          Mentions line region ∧ Mentions line tagName ∧ Mentions line tagValue)
      ∧ (addTagToImages images tagName tagValue client region).outcome
          = .returned (some (.plain ("failed to tag image " ++ failedId ++ ": " ++ cause.Error)))
      ∧ ∀ records, applyTrace (addTagToImages images tagName tagValue client region).trace
          records = done.foldl (fun updated imageId =>
            applyCreateTags
              { Resources := [imageId],
                Tags := [{ Key := some tagName, Value := some tagValue }] } updated)
            records := by
  obtain ⟨htrace, hcalls, hcount, hlines, hlcount, hout, hrecords⟩ :=
    addTagToImages_failure_run images tagName tagValue region client k hk1 hkN done failedId
      cause hids hans
  have hlen : done.length = k - 1 := by
    have := congrArg List.length hlines
    rw [hlcount, List.length_map] at this
    exact this.symm
  have hsplit : images.take k = images.take (k - 1) ++ (images.drop (k - 1)).take 1 := by
    have hk : k = (k - 1) + 1 := by omega
    conv_lhs => rw [hk, List.take_add]
  have hprefix : (images.take (k - 1)).length = done.length := by
    rw [List.length_take, hlen]; omega
  have hids' : (images.take (k - 1)).map Image.ImageId
      ++ ((images.drop (k - 1)).take 1).map Image.ImageId
      = done.map some ++ [some failedId] := by
    rw [← List.map_append, ← hsplit, hids]
    simp
  obtain ⟨hfirst, hlast⟩ := List.append_inj hids' (by simpa using hprefix)
  refine ⟨htrace, hcalls, hcount, hlines, hlcount, hfirst, ?_, ?_, hout, hrecords⟩
  · cases hdrop : images.drop (k - 1) with
    | nil => simp [hdrop] at hlast
    | cons img rest =>
      simp only [hdrop, List.take_succ_cons, List.take_zero, List.map_cons, List.map_nil,
        List.cons.injEq, and_true] at hlast
      simpa using hlast
  · intro line hline
    rw [hlines] at hline
    obtain ⟨imageId, _, rfl⟩ := List.mem_map.mp hline
    have h := taggedLine_mentions region imageId tagName tagValue
    exact ⟨h.1, h.2.2.1, h.2.2.2⟩

/-- C5: non-dry-run success. When the lister returns a list of images (each tag
having a key, each selected image having an id), dry-run is off and every
request the worker sends succeeds, the worker sends exactly one `CreateTags`
request per image selected by `filterImages`, in filter order, each with that
single image id as only resource and the single pair ("version",
"legacy-x86_64"), each followed by its confirmation line (region, image id, tag
key, tag value) before the next request, and `addTagToImages` returns nil. -/
theorem regionWorker_tags_selected (cloud : Cloud) (region : String) (images : List Image)
    (ids : List String)
    (hlist : cloud.describeImages region publicImagesQuery = .ok ⟨images⟩)
    (hkeyed : AllKeyed images)
    (hids : (images.filter unversioned).map Image.ImageId = ids.map some)
    (hsucc : ∀ a ∈ answers (cloud.createTags region) []
      (ids.map (tagRequest · "version" "legacy-x86_64")), a = none) :
    ∃ selected, filterImages images = .ok selected
      ∧ selected.map Image.ImageId = ids.map some
      ∧ addTagToImages selected "version" "legacy-x86_64" (cloud.createTags region) region
          = ⟨ids.flatMap (taggingEvents region "version" "legacy-x86_64"), .returned none⟩
      ∧ regionWorker cloud false region
          = ⟨ids.flatMap (taggingEvents region "version" "legacy-x86_64"), .returned ()⟩
      ∧ createTagsCalls (regionWorker cloud false region).trace
          = ids.map (fun imageId =>
              { Resources := [imageId],
                Tags := [{ Key := some "version", Value := some "legacy-x86_64" }] })
      ∧ stdoutLines (regionWorker cloud false region).trace
          = ids.map (taggedLine region · "version" "legacy-x86_64")
      ∧ ∀ imageId ∈ ids,
          Mentions (taggedLine region imageId "version" "legacy-x86_64") region
          ∧ Mentions (taggedLine region imageId "version" "legacy-x86_64") imageId
          ∧ Mentions (taggedLine region imageId "version" "legacy-x86_64") "version"
          ∧ Mentions (taggedLine region imageId "version" "legacy-x86_64")
              "legacy-x86_64" := by
  have hadd : addTagToImages (images.filter unversioned) "version" "legacy-x86_64"
      (cloud.createTags region) region
      = ⟨ids.flatMap (taggingEvents region "version" "legacy-x86_64"), .returned none⟩ :=
    addTagToImagesLoop_success _ _ _ region _ ids [] hids hsucc
  have hrun : regionWorker cloud false region
      = ⟨ids.flatMap (taggingEvents region "version" "legacy-x86_64"), .returned ()⟩ := by
    simp [regionWorker, getPublicImages_ok _ _ hlist, filterImages_keyed images hkeyed, hadd]
  refine ⟨images.filter unversioned, filterImages_keyed images hkeyed, hids, hadd, hrun,
    ?_, ?_, fun imageId _ => taggedLine_mentions _ _ _ _⟩
  · rw [hrun]
    simpa [tagRequest] using createTagsCalls_tagging region "version" "legacy-x86_64" ids
  · rw [hrun]
    exact stdoutLines_tagging region "version" "legacy-x86_64" ids

/-- C6: the code at a tagging failure. In region "us-east-1", with the tagger
answering "boom" for image "ami-2", the error returned by `addTagToImages` reads
"failed to tag image ami-2: boom" and the line the worker prints for it reads
"Error adding tags: failed to tag image ami-2: boom": the image id and the cause
are there, the region name is not. The same function names the region in its
confirmation line, and the worker names it in its message for a failed image
listing. For every input, what `addTagToImages` returns is the same whatever
region it is given. -/
theorem addTagToImages_error_omits_region :
    (addTagToImages [sampleImage "ami-2" []] "version" "legacy-x86_64" rejectingTagger
        "us-east-1").outcome
        = .returned (some (.plain "failed to tag image ami-2: boom"))
      ∧ Mentions (GoError.plain "failed to tag image ami-2: boom").Error "ami-2"
      ∧ Mentions (GoError.plain "failed to tag image ami-2: boom").Error "boom"
      ∧ ¬ Mentions (GoError.plain "failed to tag image ami-2: boom").Error "us-east-1"
      ∧ (regionWorker (sampleCloud rejectingTagger) false "us-east-1").trace
          = [.createTags ⟨["ami-2"], [⟨some "version", some "legacy-x86_64"⟩]⟩
                (some (.plain "boom")),
              .stdout "Error adding tags: failed to tag image ami-2: boom\n"]
      ∧ ¬ Mentions "Error adding tags: failed to tag image ami-2: boom\n" "us-east-1"
      ∧ stdoutLines (addTagToImages [sampleImage "ami-2" []] "version" "legacy-x86_64"
          acceptingTagger "us-east-1").trace
          = ["us-east-1: Tagged image ami-2 with tag 'version' = 'legacy-x86_64'\n"]
      ∧ Mentions "us-east-1: Tagged image ami-2 with tag 'version' = 'legacy-x86_64'\n"
          "us-east-1"
      ∧ regionWorker sampleCloudNoImages false "us-east-1"
          = ⟨[.logFatal
                "error fetching images for region us-east-1: error fetching images: denied"],
              .exited 1⟩
      ∧ Mentions "error fetching images for region us-east-1: error fetching images: denied"
          "us-east-1"
      ∧ ∀ (images : List Image) (tagName tagValue : String) (client : CreateTagsClient)
          (region other : String),
          (addTagToImages images tagName tagValue client region).outcome
            = (addTagToImages images tagName tagValue client other).outcome := by
  refine ⟨rfl, by decide, by decide, by decide, rfl, by decide, rfl, by decide, rfl,
    by decide, ?_⟩
  intro images tagName tagValue client region other
  exact addTagToImagesLoop_outcome_region tagName tagValue client region other images []

/-! ## The claims about the coordinator -/

/-- C7: region listing is all-or-nothing. `getEnabledRegions` returns a non-nil
error exactly when `DescribeRegions` returns an error. In that case it returns
no regions and an error wrapping the collaborator's error, and `main` (its
configuration loaded) ends with a fatal log before any worker is started: no
worker, hence no image listing and no `CreateTags` request, and no "Done!"
line. Otherwise it returns the collaborator's region list unchanged, in the
same order, with a nil error. -/
theorem getEnabledRegions_all_or_nothing (cloud : Cloud) (dryRun : Bool)
    (hcfg : cloud.loadDefaultConfig = none) :
    ((getEnabledRegions cloud.describeRegions).2 ≠ none
        ↔ ∃ err, cloud.describeRegions none = .error err)
      ∧ (∀ err, cloud.describeRegions none = .error err →
          getEnabledRegions cloud.describeRegions
              = ([], some (.wrapping ("error fetching regions: " ++ err.Error) err))
            ∧ (getEnabledRegions cloud.describeRegions).2.bind GoError.Unwrap = some err
            ∧ (main cloud dryRun).workers = []
            ∧ (main cloud dryRun).trace
                = [.logFatal ("error fetching enabled regions for AWS account: "
                    ++ ("error fetching regions: " ++ err.Error))]
            ∧ createTagsCalls (main cloud dryRun).trace = []
            ∧ stdoutLines (main cloud dryRun).trace = []
            ∧ (main cloud dryRun).outcome = .exited 1)
      ∧ (∀ out, cloud.describeRegions none = .ok out →
          getEnabledRegions cloud.describeRegions = (out.Regions, none)) := by
  refine ⟨?_, ?_, ?_⟩
  · cases h : cloud.describeRegions none with
    | error err => simp [getEnabledRegions, h]
    | ok out => simp [getEnabledRegions, h]
  · intro err h
    simp [getEnabledRegions, h, main, hcfg, GoError.Unwrap, GoError.Error, createTagsCalls,
      stdoutLines]
  · intro out h
    simp [getEnabledRegions, h]

/-- C8: region independence, over two runs of `main` on the same regions
that differ only in the tagger of region A, every image listing succeeding
(the regions having names, the images ids and keyed tags). The workers of all
regions other than A have identical runs (requests, report and confirmation
lines) in both runs; in each run exactly one worker is started per region, in
the order of the region list, every worker returns, and "Done!" is printed. A
tagging failure in A only adds a line "Error adding tags: ..." to the trace of
A's worker. -/
theorem region_independence (cloud₁ cloud₂ : Cloud) (dryRun : Bool) (regionA : String)
    (regions : List Region) (names : List String)
    (hcfg₁ : cloud₁.loadDefaultConfig = none) (hcfg₂ : cloud₂.loadDefaultConfig = none)
    (hsameRegions : cloud₂.describeRegions = cloud₁.describeRegions)
    (hsameImages : cloud₂.describeImages = cloud₁.describeImages)
    (hsameTagger : ∀ region, region ≠ regionA →
      cloud₂.createTags region = cloud₁.createTags region)
    (hregions : cloud₁.describeRegions none = .ok ⟨regions⟩)
    (hnames : regions.map Region.RegionName = names.map some)
    (himages : ∀ name ∈ names, ∃ images,
      cloud₁.describeImages name publicImagesQuery = .ok ⟨images⟩
        ∧ AllKeyed images ∧ AllIdentified images) :
    (main cloud₂ dryRun).workers.filter (fun worker => decide (worker.1 ≠ regionA))
        = (main cloud₁ dryRun).workers.filter (fun worker => decide (worker.1 ≠ regionA))
      ∧ (main cloud₁ dryRun).workers
          = names.map (fun name => (name, regionWorker cloud₁ dryRun name))
      ∧ (main cloud₂ dryRun).workers
          = names.map (fun name => (name, regionWorker cloud₂ dryRun name))
      ∧ (∀ worker ∈ (main cloud₁ dryRun).workers ++ (main cloud₂ dryRun).workers,
          worker.2.outcome = .returned ())
      ∧ (main cloud₁ dryRun).trace = [.stdout "Done!\n"]
      ∧ (main cloud₂ dryRun).trace = [.stdout "Done!\n"]
      ∧ (main cloud₁ dryRun).outcome = .returned ()
      ∧ (main cloud₂ dryRun).outcome = .returned ()
      ∧ (∀ cloud, cloud = cloud₁ ∨ cloud = cloud₂ → ∀ images selected err,
          cloud.describeImages regionA publicImagesQuery = .ok ⟨images⟩ →
          filterImages images = .ok selected →
          (addTagToImages selected "version" "legacy-x86_64" (cloud.createTags regionA)
            regionA).outcome = .returned (some err) →
          regionWorker cloud false regionA
            = ⟨(addTagToImages selected "version" "legacy-x86_64" (cloud.createTags regionA)
                  regionA).trace ++ [.stdout ("Error adding tags: " ++ err.Error ++ "\n")],
                .returned ()⟩) := by
  have hret₁ : ∀ name ∈ names, (regionWorker cloud₁ dryRun name).outcome = .returned () := by
    intro name hname
    obtain ⟨images, hlist, hkeyed, hident⟩ := himages name hname
    exact regionWorker_returns cloud₁ dryRun name images hlist hkeyed hident
  have hret₂ : ∀ name ∈ names, (regionWorker cloud₂ dryRun name).outcome = .returned () := by
    intro name hname
    obtain ⟨images, hlist, hkeyed, hident⟩ := himages name hname
    exact regionWorker_returns cloud₂ dryRun name images (by rw [hsameImages]; exact hlist)
      hkeyed hident
  obtain ⟨hw₁, ht₁, ho₁⟩ := main_all_return cloud₁ dryRun regions names hcfg₁ hregions hnames
    hret₁
  obtain ⟨hw₂, ht₂, ho₂⟩ := main_all_return cloud₂ dryRun regions names hcfg₂
    (by rw [hsameRegions]; exact hregions) hnames hret₂
  refine ⟨?_, hw₁, hw₂, ?_, ht₁, ht₂, ho₁, ho₂, ?_⟩
  · rw [hw₁, hw₂, List.filter_map, List.filter_map]
    apply List.map_congr_left
    intro name hname
    have hne : name ≠ regionA := by simpa using (List.mem_filter.mp hname).2
    rw [regionWorker_congr cloud₁ cloud₂ dryRun name hsameImages (hsameTagger name hne)]
  · intro worker hworker
    rw [hw₁, hw₂] at hworker
    rcases List.mem_append.mp hworker with hmem | hmem
    · obtain ⟨name, hname, rfl⟩ := List.mem_map.mp hmem
      exact hret₁ name hname
    · obtain ⟨name, hname, rfl⟩ := List.mem_map.mp hmem
      exact hret₂ name hname
  · intro cloud _ images selected err hlist hsel hfail
    exact regionWorker_logs_failure cloud regionA images selected err hlist hsel hfail

/-- C10: convergence of a run. The pair the worker applies has the key the
filter tests: an image selected by `filterImages` (`lacksVersionTag` true) is no
longer selected once the tags of the worker's request ("version",
"legacy-x86_64") are added to its tags. Hence, a successful `CreateTags`
appending that pair to the tags of the image it names, after a non-dry-run
worker whose requests all succeed (tags with keys, selected images with ids),
`filterImages` over the region's updated images returns the empty list, and a
second worker over them sends no `CreateTags` request. -/
theorem tagging_converges (cloud : Cloud) (region : String) (images : List Image)
    (ids : List String)
    (hlist : cloud.describeImages region publicImagesQuery = .ok ⟨images⟩)
    (hkeyed : AllKeyed images)
    (hids : (images.filter unversioned).map Image.ImageId = ids.map some)
    (hsucc : ∀ a ∈ answers (cloud.createTags region) []
      (ids.map (tagRequest · "version" "legacy-x86_64")), a = none) :
    (∀ (image : Image) (imageId : String), lacksVersionTag image = .ok true →
        lacksVersionTag { image with
          Tags := image.Tags ++ (tagRequest imageId "version" "legacy-x86_64").Tags }
          = .ok false)
      ∧ (regionWorker cloud false region).outcome = .returned ()
      ∧ createTagsCalls (regionWorker cloud false region).trace
          = ids.map (tagRequest · "version" "legacy-x86_64")
      ∧ filterImages (applyTrace (regionWorker cloud false region).trace images) = .ok []
      ∧ ∀ next : Cloud,
          next.describeImages region publicImagesQuery
            = .ok ⟨applyTrace (regionWorker cloud false region).trace images⟩ →
          regionWorker next false region = ⟨[], .returned ()⟩
            ∧ createTagsCalls (regionWorker next false region).trace = [] := by
  have hrun : regionWorker cloud false region
      = ⟨ids.flatMap (taggingEvents region "version" "legacy-x86_64"), .returned ()⟩ := by
    have hadd := addTagToImagesLoop_success "version" "legacy-x86_64" (cloud.createTags region)
      region _ ids [] hids hsucc
    simp [regionWorker, getPublicImages_ok _ _ hlist, filterImages_keyed images hkeyed,
      addTagToImages, hadd]
  have hfinal : filterImages (applyTrace (regionWorker cloud false region).trace images)
      = .ok [] := by
    rw [hrun, applyTrace_tagging]
    apply tagging_leaves_none
    intro image himage
    refine ⟨hkeyed image himage, ?_⟩
    by_cases hc : versionTagCount image = 0
    · right
      have hmem : image ∈ images.filter unversioned :=
        List.mem_filter.mpr ⟨himage, by simpa [unversioned] using hc⟩
      have hin : image.ImageId ∈ ids.map some := by
        rw [← hids]; exact List.mem_map_of_mem _ hmem
      obtain ⟨i, hi, heq⟩ := List.mem_map.mp hin
      exact ⟨i, hi, heq.symm⟩
    · exact Or.inl hc
  refine ⟨?_, by rw [hrun], ?_, hfinal, ?_⟩
  · intro image imageId h
    exact lacksVersionTagLoop_append_version image.Tags (some "legacy-x86_64") h
  · rw [hrun, createTagsCalls_tagging]
  · intro next hnext
    have hworker := regionWorker_nothing_to_tag next region _ hnext hfinal
    rw [hworker]
    exact ⟨rfl, rfl⟩

/-! ## The claims at the sample data -/

/-- C1 at the three sample images: the two untagged images are returned. -/
theorem filterImages_spec_witness :
    AllKeyed sampleImages
      ∧ filterImages sampleImages = .ok [sampleImage "ami-2" [], sampleImage "ami-3" []] := by
  refine ⟨by decide, ?_⟩
  obtain ⟨filtered, hrun, hfiltered, _⟩ := filterImages_spec sampleImages (by decide)
  rw [hrun, hfiltered]
  rfl

/-- C2 at the three sample images. -/
theorem filterImages_idempotent_witness :
    filterImages sampleImages = .ok [sampleImage "ami-2" [], sampleImage "ami-3" []]
      ∧ filterImages [sampleImage "ami-2" [], sampleImage "ami-3" []]
          = .ok [sampleImage "ami-2" [], sampleImage "ami-3" []]
      ∧ [sampleImage "ami-2" [], sampleImage "ami-3" []].Sublist sampleImages :=
  ⟨rfl, (filterImages_idempotent sampleImages).2 _ rfl⟩

/-- C9 at the sample images: an untagged image and its arm64 copy, and the
sample list with every architecture rewritten. -/
theorem lacksVersionTag_keys_only_witness :
    tagKeys (sampleImage "ami-2" []) = tagKeys (asArm64 (sampleImage "ami-9" []))
      ∧ (∀ image, tagKeys (asArm64 image) = tagKeys image)
      ∧ lacksVersionTag (sampleImage "ami-2" [])
          = lacksVersionTag (asArm64 (sampleImage "ami-9" []))
      ∧ filterImages (sampleImages.map asArm64)
          = (filterImages sampleImages).map (List.map asArm64) :=
  ⟨rfl, fun _ => rfl,
    lacksVersionTag_keys_only (sampleImage "ami-2" []) (asArm64 (sampleImage "ami-9" [])) rfl
      asArm64 (fun _ => rfl) sampleImages⟩

/-- C3 at the end-to-end scenario: three images, two report lines, no request. -/
theorem regionWorker_dry_run_witness :
    (sampleCloud acceptingTagger).describeImages "us-east-1" publicImagesQuery
        = .ok ⟨sampleImages⟩
      ∧ AllKeyed sampleImages
      ∧ (sampleImages.filter unversioned).map Image.ImageId = ["ami-2", "ami-3"].map some
      ∧ regionWorker (sampleCloud acceptingTagger) true "us-east-1"
          = ⟨[.stdout "us-east-1: Would of Tagged image ami-2 with tag \x27version\x27 = \x27legacy-x86_64\x27\n",
              .stdout "us-east-1: Would of Tagged image ami-3 with tag \x27version\x27 = \x27legacy-x86_64\x27\n"],
            .returned ()⟩
      ∧ createTagsCalls (regionWorker (sampleCloud acceptingTagger) true "us-east-1").trace
          = [] := by
  obtain ⟨hnone, _, _, _, hrun, _⟩ := regionWorker_dry_run (sampleCloud acceptingTagger)
    "us-east-1" sampleImages ["ami-2", "ami-3"] rfl (by decide) rfl
  exact ⟨rfl, by decide, rfl, hrun, hnone _ _⟩

/-- C4 at three images with a tagger failing from its second call on
(N = 3, k = 2): two requests, for `ami-2` and `ami-3` and none for `ami-4`, the
one confirmation line of `ami-2`, and the error naming `ami-3`. -/
theorem addTagToImages_fail_fast_witness :
    (2 ≤ [sampleImage "ami-2" [], sampleImage "ami-3" [], sampleImage "ami-4" []].length)
      ∧ answers secondCallFails []
          [⟨["ami-2"], [⟨some "version", some "legacy-x86_64"⟩]⟩,
            ⟨["ami-3"], [⟨some "version", some "legacy-x86_64"⟩]⟩]
          = [none, some (.plain "boom")]
      ∧ createTagsCalls (addTagToImages
          [sampleImage "ami-2" [], sampleImage "ami-3" [], sampleImage "ami-4" []]
          "version" "legacy-x86_64" secondCallFails "us-east-1").trace
          = [⟨["ami-2"], [⟨some "version", some "legacy-x86_64"⟩]⟩,
              ⟨["ami-3"], [⟨some "version", some "legacy-x86_64"⟩]⟩]
      ∧ stdoutLines (addTagToImages
          [sampleImage "ami-2" [], sampleImage "ami-3" [], sampleImage "ami-4" []]
          "version" "legacy-x86_64" secondCallFails "us-east-1").trace
          = ["us-east-1: Tagged image ami-2 with tag 'version' = 'legacy-x86_64'\n"]
      ∧ (addTagToImages
          [sampleImage "ami-2" [], sampleImage "ami-3" [], sampleImage "ami-4" []]
          "version" "legacy-x86_64" secondCallFails "us-east-1").outcome
          = .returned (some (.plain "failed to tag image ami-3: boom")) := by
  obtain ⟨_, hcalls, _, hlines, _, _, _, _, hout, _⟩ := addTagToImages_fail_fast
    [sampleImage "ami-2" [], sampleImage "ami-3" [], sampleImage "ami-4" []]
    "version" "legacy-x86_64" "us-east-1" secondCallFails 2 (by decide) (by decide)
    ["ami-2"] "ami-3" (.plain "boom") rfl rfl
  exact ⟨by decide, rfl, hcalls, hlines, hout⟩

/-- C5 at the end-to-end scenario: three images, one tagged `version = x86_64`
and two untagged, give two requests and two confirmation lines. -/
theorem regionWorker_tags_selected_witness :
    (sampleCloud acceptingTagger).describeImages "us-east-1" publicImagesQuery
        = .ok ⟨sampleImages⟩
      ∧ AllKeyed sampleImages
      ∧ (sampleImages.filter unversioned).map Image.ImageId = ["ami-2", "ami-3"].map some
      ∧ createTagsCalls (regionWorker (sampleCloud acceptingTagger) false "us-east-1").trace
          = [⟨["ami-2"], [⟨some "version", some "legacy-x86_64"⟩]⟩,
              ⟨["ami-3"], [⟨some "version", some "legacy-x86_64"⟩]⟩]
      ∧ (stdoutLines (regionWorker (sampleCloud acceptingTagger) false "us-east-1").trace).length
          = 2 := by
  obtain ⟨_, _, _, _, _, hcalls, hlines, _⟩ := regionWorker_tags_selected
    (sampleCloud acceptingTagger) "us-east-1" sampleImages ["ami-2", "ami-3"] rfl (by decide)
    rfl (by decide)
  refine ⟨rfl, by decide, rfl, hcalls, ?_⟩
  rw [hlines]
  rfl

/-- C7 at a provider whose region lister fails with "denied". -/
theorem getEnabledRegions_all_or_nothing_witness :
    sampleCloudNoRegions.loadDefaultConfig = none
      ∧ sampleCloudNoRegions.describeRegions none = .error (.plain "denied")
      ∧ getEnabledRegions sampleCloudNoRegions.describeRegions
          = ([], some (.wrapping "error fetching regions: denied" (.plain "denied")))
      ∧ (main sampleCloudNoRegions false).workers = []
      ∧ (main sampleCloudNoRegions false).outcome = .exited 1 := by
  obtain ⟨hreturn, _, hworkers, _, _, _, hout⟩ :=
    (getEnabledRegions_all_or_nothing sampleCloudNoRegions false rfl).2.1 (.plain "denied") rfl
  exact ⟨rfl, rfl, hreturn, hworkers, hout⟩

/-- C8 at two regions: the tagger of `us-east-1` accepts in one run and
rejects in the other; the worker of `eu-west-1` runs the same in both. -/
theorem region_independence_witness :
    (main (twoRegionCloud rejectingTagger) false).workers.filter
        (fun worker => decide (worker.1 ≠ "us-east-1"))
        = (main (twoRegionCloud acceptingTagger) false).workers.filter
            (fun worker => decide (worker.1 ≠ "us-east-1"))
      ∧ (main (twoRegionCloud rejectingTagger) false).workers.map Prod.fst
          = ["us-east-1", "eu-west-1"]
      ∧ (main (twoRegionCloud rejectingTagger) false).trace = [.stdout "Done!\n"] := by
  obtain ⟨hsame, _, hworkers, _, _, hdone, _⟩ := region_independence
    (twoRegionCloud acceptingTagger) (twoRegionCloud rejectingTagger) false "us-east-1"
    [⟨some "us-east-1"⟩, ⟨some "eu-west-1"⟩] ["us-east-1", "eu-west-1"] rfl rfl rfl rfl
    (fun region hne => by simp [twoRegionCloud, hne]) rfl rfl
    (fun _ _ => ⟨sampleImages, rfl, by decide, by decide⟩)
  refine ⟨hsame, ?_, hdone⟩
  rw [hworkers]
  rfl

/-- C10 at the end-to-end scenario: after one successful run nothing is left
to tag. -/
theorem tagging_converges_witness :
    (sampleCloud acceptingTagger).describeImages "us-east-1" publicImagesQuery
        = .ok ⟨sampleImages⟩
      ∧ AllKeyed sampleImages
      ∧ (sampleImages.filter unversioned).map Image.ImageId = ["ami-2", "ami-3"].map some
      ∧ createTagsCalls (regionWorker (sampleCloud acceptingTagger) false "us-east-1").trace
          = ["ami-2", "ami-3"].map (tagRequest · "version" "legacy-x86_64")
      ∧ filterImages (applyTrace
          (regionWorker (sampleCloud acceptingTagger) false "us-east-1").trace sampleImages)
          = .ok [] := by
  obtain ⟨_, _, hcalls, hfinal, _⟩ := tagging_converges (sampleCloud acceptingTagger)
    "us-east-1" sampleImages ["ami-2", "ami-3"] rfl (by decide) rfl (by decide)
  exact ⟨rfl, by decide, rfl, hcalls, hfinal⟩

end UpdateGoldenAmi
